import Mathlib

/-!
Verification of `the-test-framework` (hinerk/the-test-framework).

This file is a shallow embedding of the orchestration core of the repository:

* `TestResult` and its `merge` law        — `core/dtypes.py`
* `infer_test_result`                     — `core/test_step/helpers.py`
* the completed-metadata step tree and
  its `test_result` aggregation           — `core/test_step/metadata.py`
* the `TestStepSupervision` state machine — `core/test_step/supervision.py`
* the sequence-phase control flow of the
  execution loop                          — `core/test_system.py`
* `DecoratedTestStep.__call__`            — `core/test_step/decorated_test_step.py`
* capability binding and callback slots   — `core/callback_registry/...`, `core/arg_flags/...`
* the `never_abort` guard                 — `core/test_system.py`

Python values are modelled by `PyValue` (only the distinctions the framework
inspects are kept: whether a value is a `TestResult`, a `CustomTestResult`,
`None`, or anything else), Python exceptions by `PyExc` (the framework's
control-signal classes plus the generic rest), and raising code by `Except`.
Identity-only metadata (uuid, step name, timestamps' actual clock values,
log-record contents) is carried as opaque `Nat`s or elided where no claim
inspects it.
-/

namespace TheTestFramework

/-! # Result algebra — `core/dtypes.py` -/

/-- The `TestResult` enum: the result of both test step and test sequence. -/
inductive TestResult where
  | SUCCESS
  | FAILED
  | EXCEPTION
  deriving DecidableEq, Repr, Fintype

/-- The `TestResultMergingPrecedence` list from `core/dtypes.py`. -/
def TestResultMergingPrecedence : List TestResult :=
  [TestResult.SUCCESS, TestResult.FAILED, TestResult.EXCEPTION]

/-- Index into `TestResultMergingPrecedence`, as `TestResultMergingPrecedence.index(r)` in the source. -/
def precedenceIndex (r : TestResult) : Nat :=
  TestResultMergingPrecedence.indexOf r

/-- Source method `TestResult.merge`: take the precedence indices of both operands, the
larger index wins, and the winning entry of the precedence list is returned.
The source's final `TestResult(winning_precedence.value)` round-trip is the
identity. The list access is total in the source because both indices are
valid positions; `getD` supplies a (never used) default. -/
def TestResult.merge (a b : TestResult) : TestResult :=
  let winning := max (precedenceIndex a) (precedenceIndex b)
  TestResultMergingPrecedence.getD winning TestResult.EXCEPTION

/-- Source method `TestResult.__bool__`: a result is truthy iff it is `SUCCESS`. -/
def TestResult.toBool (r : TestResult) : Bool :=
  r = TestResult.SUCCESS

/-- The total order `Success < Failed < Exception` of the specification,
expressed through the precedence index ("better" = smaller index). -/
def resultLe (a b : TestResult) : Prop :=
  precedenceIndex a ≤ precedenceIndex b

instance (a b : TestResult) : Decidable (resultLe a b) :=
  Nat.decLe _ _

/-- Specification-side `max(a, b)` under `Success < Failed < Exception`, written from the
specification's words (for comparison against the source's `merge`). -/
def specResultMax (a b : TestResult) : TestResult :=
  if precedenceIndex a ≤ precedenceIndex b then b else a

/-! Basic algebra of `merge`, shared by several claims below. -/

theorem merge_comm : ∀ a b : TestResult, a.merge b = b.merge a := by decide

theorem merge_assoc :
    ∀ a b c : TestResult, (a.merge b).merge c = a.merge (b.merge c) := by decide

theorem merge_idem : ∀ a : TestResult, a.merge a = a := by decide

theorem le_merge_left : ∀ a b : TestResult, resultLe a (a.merge b) := by decide

theorem le_merge_right : ∀ a b : TestResult, resultLe b (a.merge b) := by decide

theorem resultLe_trans :
    ∀ a b c : TestResult, resultLe a b → resultLe b c → resultLe a c := by decide

/-- Claim C1: for all `a, b, c` in `{Success, Failed, Exception}`,
`TestResult.merge` is associative, commutative, idempotent, and
`merge(a, b) = max(a, b)` under the total order
`Success < Failed < Exception`. -/
theorem C1_merge_algebra :
    ∀ a b c : TestResult,
      (a.merge b).merge c = a.merge (b.merge c) ∧
      a.merge b = b.merge a ∧
      a.merge a = a ∧
      a.merge b = specResultMax a b := by decide

/-! # Python value and exception model -/

/-- A Python value, keeping exactly the distinctions the framework inspects:
`isinstance(x, TestResult)`, `isinstance(x, CustomTestResult)` (whose
`.result` tag and `.returned` payload matter), `None`, and opaque other data.
`CustomTestResult.returned` is itself an arbitrary value. -/
inductive PyValue where
  | testResult (r : TestResult)
  | customResult (r : TestResult) (payload : PyValue)
  | none
  | other (data : Nat)
  | sentinel
  deriving DecidableEq, Repr

/-- Whether a value carries an explicit embedded result tag
(`TestResult` or `CustomTestResult`), per `infer_test_result`'s
`isinstance` checks. -/
def PyValue.carriesResultTag : PyValue → Bool
  | .testResult _ => true
  | .customResult _ _ => true
  | _ => false

/-- The exception classes of `core/exceptions.py` that the framework
dispatches on, plus the builtin exceptions the embedded code can raise and a
generic rest. Every constructor models a subclass of Python's `Exception`
(so an `except Exception` clause catches all of them); only `failedTest`
is an instance of `FailedTest`. -/
inductive PyExc where
  | failedTest
  | quitTestSystem
  | abortTestSequence
  | runtimeError (msg : String)
  | typeError (msg : String)
  | assertionError
  | otherExc (data : Nat)
  deriving DecidableEq, Repr

/-! # `infer_test_result` — `core/test_step/helpers.py` -/

/-- Source function `infer_test_result(returned, exc_info)`: an embedded `TestResult` is used
verbatim; a `CustomTestResult`'s `.result` is used; otherwise a present
exception is classified (`FailedTest` ↦ `FAILED`, anything else ↦
`EXCEPTION`); otherwise `SUCCESS`. -/
def infer_test_result (returned : PyValue) (exc_info : Option PyExc) : TestResult :=
  match returned with
  | .testResult r => r
  | .customResult r _ => r
  | _ =>
    match exc_info with
    | some e => if e = PyExc.failedTest then TestResult.FAILED else TestResult.EXCEPTION
    | Option.none => TestResult.SUCCESS

/-- Claim C3: `infer_test_result` returns the embedded result verbatim when the
returned value carries an explicit result tag; otherwise a present exception
is classified (`FailedTest` ↦ `Failed`, any other exception ↦ `Exception`);
otherwise `Success`. -/
theorem C3_infer_test_result
    (r : TestResult) (payload : PyValue) (v : PyValue) (e : PyExc)
    (exc : Option PyExc) :
    infer_test_result (.testResult r) exc = r ∧
    infer_test_result (.customResult r payload) exc = r ∧
    (v.carriesResultTag = false →
      infer_test_result v (some .failedTest) = .FAILED) ∧
    (v.carriesResultTag = false → e ≠ .failedTest →
      infer_test_result v (some e) = .EXCEPTION) ∧
    (v.carriesResultTag = false →
      infer_test_result v Option.none = .SUCCESS) := by
  refine ⟨?_, ?_, ?_, ?_, ?_⟩
  · rfl
  · rfl
  · intro h; cases v <;> simp_all [infer_test_result, PyValue.carriesResultTag]
  · intro h he; cases v <;>
      simp_all [infer_test_result, PyValue.carriesResultTag]
  · intro h; cases v <;> simp_all [infer_test_result, PyValue.carriesResultTag]

/-- Witness for `C3` at concrete inputs (an untagged value, a
non-`FailedTest` exception). -/
theorem C3_infer_test_result_witness :
    infer_test_result (.testResult .FAILED) (some (.otherExc 0)) = .FAILED ∧
    infer_test_result (.customResult .FAILED (.other 1)) (some (.otherExc 0)) = .FAILED ∧
    infer_test_result (.other 7) (some .failedTest) = .FAILED ∧
    infer_test_result (.other 7) (some (.otherExc 0)) = .EXCEPTION ∧
    infer_test_result (.other 7) Option.none = .SUCCESS := by
  have h := C3_infer_test_result TestResult.FAILED (.other 1) (.other 7)
    (.otherExc 0) (some (.otherExc 0))
  exact ⟨h.1, h.2.1, h.2.2.1 (by decide), h.2.2.2.1 (by decide) (by decide),
    h.2.2.2.2 (by decide)⟩

/-! # Completed step metadata tree — `core/test_step/metadata.py`

`StepTree` models a `TestStepMetadata` node whose execution has completed:
its submitted return value, its attached exception info, and its embedded
child steps in creation order. (Identity fields — uuid, name, timestamps,
log records — do not influence `test_result` and are elided here; the
not-yet-completed lifecycle is modelled separately below for C4.) -/

inductive StepTree where
  | node (returned : PyValue) (exc_info : Option PyExc) (children : List StepTree)

/-- Python's `functools.reduce(merge, [*children_results, inferred])`:
the list is never empty because the node's own inferred result is appended.
`reduce` folds left starting from the first element. -/
def reduceMergeWithInferred (childrenResults : List TestResult)
    (inferred : TestResult) : TestResult :=
  match childrenResults with
  | [] => inferred
  | x :: xs => (xs ++ [inferred]).foldl TestResult.merge x

mutual

/-- Source property `TestStepMetadata.test_result` on a completed node: the merge of the
results of all embedded steps with the result inferred from the node's own
return value and exception info. (The source iterates the embedded results
as a set; since `merge` is commutative, associative and idempotent, the
fold over the list of children in order gives the same value.) -/
def StepTree.test_result : StepTree → TestResult
  | .node returned exc_info children =>
    reduceMergeWithInferred (childResultsList children)
      (infer_test_result returned exc_info)

/-- The list of `test_result`s of a list of sibling nodes, in order. -/
def childResultsList : List StepTree → List TestResult
  | [] => []
  | t :: ts => t.test_result :: childResultsList ts

end

/-- The node's own inferred result (`infer_test_result(return_value, exc_info)`). -/
def StepTree.inferredResult : StepTree → TestResult
  | .node returned exc_info _ => infer_test_result returned exc_info

/-- The node's embedded child steps. -/
def StepTree.children : StepTree → List StepTree
  | .node _ _ cs => cs

mutual

/-- Source generator `TestStepMetadata.descendants()`: each child followed by its own
descendants, in order. -/
def StepTree.descendantsList : StepTree → List StepTree
  | .node _ _ children => descendantsOfList children

def descendantsOfList : List StepTree → List StepTree
  | [] => []
  | t :: ts => t :: (t.descendantsList ++ descendantsOfList ts)

end

/-! Fold lemmas for `merge`. -/

theorem resultLe_foldl_merge (l : List TestResult) :
    ∀ a : TestResult, resultLe a (l.foldl TestResult.merge a) := by
  induction l with
  | nil => intro a; exact Nat.le_refl _
  | cons x xs ih =>
    intro a
    exact resultLe_trans _ _ _ (le_merge_left a x) (ih (a.merge x))

theorem mem_foldl_merge_le (l : List TestResult) :
    ∀ (a x : TestResult), x ∈ l → resultLe x (l.foldl TestResult.merge a) := by
  induction l with
  | nil => intro a x hx; cases hx
  | cons y ys ih =>
    intro a x hx
    rcases List.mem_cons.mp hx with h | h
    · subst h
      exact resultLe_trans _ _ _ (le_merge_right a x)
        (resultLe_foldl_merge ys (a.merge x))
    · exact ih (a.merge y) x h

theorem foldl_merge_pull (l : List TestResult) :
    ∀ a b : TestResult,
      (l.foldl TestResult.merge a).merge b = l.foldl TestResult.merge (a.merge b) := by
  induction l with
  | nil => intro a b; rfl
  | cons x xs ih =>
    intro a b
    simp only [List.foldl_cons]
    rw [ih (a.merge x) b, merge_assoc, merge_comm x b, ← merge_assoc]

/-- The source's `reduce(merge, [*children, inferred])` equals the left fold
of `merge` over the children's results starting from the inferred result. -/
theorem reduceMergeWithInferred_eq (cs : List TestResult) (inferred : TestResult) :
    reduceMergeWithInferred cs inferred = cs.foldl TestResult.merge inferred := by
  cases cs with
  | nil => rfl
  | cons x xs =>
    simp only [reduceMergeWithInferred, List.foldl_append, List.foldl_cons,
      List.foldl_nil]
    rw [foldl_merge_pull xs x inferred, merge_comm x inferred,
      ← foldl_merge_pull xs inferred x]

theorem mem_childResultsList {d : StepTree} :
    ∀ {cs : List StepTree}, d ∈ cs → d.test_result ∈ childResultsList cs := by
  intro cs
  induction cs with
  | nil => intro h; cases h
  | cons t ts ih =>
    intro h
    rcases List.mem_cons.mp h with h | h
    · subst h; exact List.mem_cons_self _ _
    · exact List.mem_cons_of_mem _ (ih h)

/-- A child's result is never better than its parent's merged result. -/
theorem child_result_le {t : StepTree} {c : StepTree} (hc : c ∈ t.children) :
    resultLe c.test_result t.test_result := by
  cases t with
  | node returned exc_info children =>
    show resultLe c.test_result (StepTree.test_result (.node returned exc_info children))
    rw [StepTree.test_result, reduceMergeWithInferred_eq]
    exact mem_foldl_merge_le _ _ _ (mem_childResultsList hc)

theorem mem_descendantsOfList {d : StepTree} :
    ∀ {cs : List StepTree}, d ∈ descendantsOfList cs →
      ∃ c ∈ cs, d = c ∨ d ∈ c.descendantsList := by
  intro cs
  induction cs with
  | nil => intro h; cases h
  | cons t ts ih =>
    intro h
    rw [descendantsOfList] at h
    rcases List.mem_cons.mp h with h | h
    · exact ⟨t, List.mem_cons_self _ _, Or.inl h⟩
    · rcases List.mem_append.mp h with h | h
      · exact ⟨t, List.mem_cons_self _ _, Or.inr h⟩
      · obtain ⟨c, hc, hd⟩ := ih h
        exact ⟨c, List.mem_cons_of_mem _ hc, hd⟩

/-- A descendant's result is never better than the ancestor's merged result
(bounded induction over the tree size). -/
theorem descendant_result_le_aux :
    ∀ (n : Nat) (t d : StepTree), sizeOf t ≤ n → d ∈ t.descendantsList →
      resultLe d.test_result t.test_result := by
  intro n
  induction n with
  | zero =>
    intro t d hsize
    cases t with
    | node r e cs => simp at hsize
  | succ n ih =>
    intro t d hsize hd
    cases t with
    | node r e cs =>
      rw [StepTree.descendantsList] at hd
      obtain ⟨c, hc, hcase⟩ := mem_descendantsOfList hd
      have hchild : resultLe c.test_result
          (StepTree.node r e cs).test_result := child_result_le hc
      rcases hcase with rfl | hdc
      · exact hchild
      · have hcsize : sizeOf c < sizeOf (StepTree.node r e cs) := by
          have := List.sizeOf_lt_of_mem hc
          simp only [StepTree.node.sizeOf_spec]
          omega
        have : resultLe d.test_result c.test_result :=
          ih c d (by omega) hdc
        exact resultLe_trans _ _ _ this hchild

/-- Claim C2: a completed node's `test_result` equals the merge of its own
inferred result with the merge over all children's `test_result`s (here: the
left fold of `merge` over the children's results starting from the inferred
result), and consequently a node's `test_result` is never better — never
earlier in the order `Success < Failed < Exception` — than its own inferred
result or any descendant's `test_result`. -/
theorem C2_test_result_aggregation :
    (∀ (returned : PyValue) (exc_info : Option PyExc) (children : List StepTree),
      (StepTree.node returned exc_info children).test_result
        = (childResultsList children).foldl TestResult.merge
            (infer_test_result returned exc_info)) ∧
    (∀ t : StepTree, resultLe t.inferredResult t.test_result) ∧
    (∀ t d : StepTree, d ∈ t.descendantsList →
      resultLe d.test_result t.test_result) := by
  refine ⟨?_, ?_, ?_⟩
  · intro returned exc_info children
    rw [StepTree.test_result, reduceMergeWithInferred_eq]
  · intro t
    cases t with
    | node r e cs =>
      rw [StepTree.inferredResult, StepTree.test_result, reduceMergeWithInferred_eq]
      exact resultLe_foldl_merge _ _
  · intro t d hd
    exact descendant_result_le_aux (sizeOf t) t d (Nat.le_refl _) hd

/-- Witness for `C2` at a concrete tree: a parent that itself succeeded with
a child that failed; the descendant bound is discharged at that child. -/
theorem C2_test_result_aggregation_witness :
    resultLe
      (StepTree.node (.testResult .FAILED) Option.none []).test_result
      (StepTree.node PyValue.none Option.none
        [StepTree.node (.testResult .FAILED) Option.none []]).test_result := by
  exact C2_test_result_aggregation.2.2
    (StepTree.node PyValue.none Option.none
      [StepTree.node (.testResult .FAILED) Option.none []])
    (StepTree.node (.testResult .FAILED) Option.none [])
    (by simp [StepTree.descendantsList, descendantsOfList])

/-! # Step supervision lifecycle — `core/test_step/supervision.py` and
`core/test_step/metadata.py`

`TestStepMetadataState` models the mutable fields of a `TestStepMetadata`
object; `TestStepSupervisionState` adds the two supervision flags. The three
events are scope entry (`__enter__`), scope exit (`__exit__`) and
`submit_return_value`; `attemptToComplete` is `_attempt_to_complete`.
Timestamps and log records are opaque `Nat`s. -/

structure TestStepMetadataState where
  exc_info : Option PyExc
  log_messages : Option (List Nat)
  return_value : PyValue
  return_value_is_set : Bool
  test_start_time : Option Nat
  test_end_time : Option Nat
  embedded_steps : List StepTree
  completed : Bool

/-- The fields as initialised by `TestStepMetadata.__init__` (the embedded
steps of child supervisions appended during execution are a parameter). -/
def initMetadata (embedded : List StepTree) : TestStepMetadataState :=
  { exc_info := Option.none
    log_messages := Option.none
    return_value := PyValue.none
    return_value_is_set := false
    test_start_time := Option.none
    test_end_time := Option.none
    embedded_steps := embedded
    completed := false }

structure TestStepSupervisionState where
  metadata : TestStepMetadataState
  traversed_context : Bool
  submitted_return_value : Bool

/-- State of a fresh `TestStepSupervision` over fresh metadata. -/
def initSupervision (embedded : List StepTree) : TestStepSupervisionState :=
  { metadata := initMetadata embedded
    traversed_context := false
    submitted_return_value := false }

/-- Source method `TestStepSupervision._attempt_to_complete`: mark the metadata completed
iff the return value was submitted and the context was traversed. -/
def attemptToComplete (s : TestStepSupervisionState) : TestStepSupervisionState :=
  if s.submitted_return_value ∧ s.traversed_context then
    { s with metadata := { s.metadata with completed := true } }
  else s

/-- Source method `TestStepSupervision.__enter__`: start log capture (opaque), run the
enter callback, submit the start time. -/
def supervisionEnter (t : Nat) (s : TestStepSupervisionState) :
    TestStepSupervisionState :=
  { s with metadata := { s.metadata with test_start_time := some t } }

/-- Source method `TestStepSupervision.__exit__`: submit the end time, end log capture,
set `traversed_context`, submit the exception that propagated through the
scope (`None` on normal exit) and the captured log records, then attempt to
complete. -/
def supervisionExit (t : Nat) (exc : Option PyExc) (logs : List Nat)
    (s : TestStepSupervisionState) : TestStepSupervisionState :=
  attemptToComplete
    { s with
      traversed_context := true
      metadata :=
        { s.metadata with
          test_end_time := some t
          exc_info := exc
          log_messages := some logs } }

/-- Source method `TestStepSupervision.submit_return_value`: record the value, set both
submitted flags, then attempt to complete. -/
def submitReturnValue (v : PyValue) (s : TestStepSupervisionState) :
    TestStepSupervisionState :=
  attemptToComplete
    { s with
      submitted_return_value := true
      metadata := { s.metadata with return_value := v, return_value_is_set := true } }

/-! Property accessors of `TestStepMetadata`; raising properties return
`Except` with the source's error condition. -/

/-- Source property `TestStepMetadata.start_time`: raises while the start time is unset. -/
def TestStepMetadataState.start_time_prop (m : TestStepMetadataState) :
    Except String Nat :=
  match m.test_start_time with
  | Option.none => .error "TestStep has not been started!"
  | some t => .ok t

/-- Source property `TestStepMetadata.end_time`: raises while the end time is unset. -/
def TestStepMetadataState.end_time_prop (m : TestStepMetadataState) :
    Except String Nat :=
  match m.test_end_time with
  | Option.none => .error "TestStep not yet completed!"
  | some t => .ok t

/-- Source property `TestStepMetadata.return_value`: raises while the value is unsubmitted. -/
def TestStepMetadataState.return_value_prop (m : TestStepMetadataState) :
    Except String PyValue :=
  if ¬ m.return_value_is_set then .error "return value is not yet set!"
  else .ok m.return_value

/-- Source property `TestStepMetadata.exc_info`: raises while not completed. -/
def TestStepMetadataState.exc_info_prop (m : TestStepMetadataState) :
    Except String (Option PyExc) :=
  if ¬ m.completed then .error "test step not yet completed!"
  else .ok m.exc_info

/-- Source property `TestStepMetadata.log_messages`: raises while the log records are unset. -/
def TestStepMetadataState.log_messages_prop (m : TestStepMetadataState) :
    Except String (List Nat) :=
  match m.log_messages with
  | Option.none => .error "Log messages are not yet set!"
  | some l => .ok l

/-- Source property `TestStepMetadata.test_result`: raises while not completed; otherwise
the merge of the embedded steps' results with the inferred own result. -/
def TestStepMetadataState.test_result_prop (m : TestStepMetadataState) :
    Except String TestResult :=
  if ¬ m.completed then .error "test step has not completed yet!"
  else .ok (reduceMergeWithInferred (childResultsList m.embedded_steps)
    (infer_test_result m.return_value m.exc_info))

/-- The claim `C4` as stated is false: after scope entry and scope exit
without return-value submission, `completed` is still false, yet the log
records and both timing fields read back without error (only the merged
result, exception info and return value raise). -/
theorem C4_counterexample :
    let s := supervisionExit 1 Option.none []
      (supervisionEnter 0 (initSupervision []))
    s.metadata.completed = false ∧
    s.metadata.log_messages_prop = .ok [] ∧
    s.metadata.start_time_prop = .ok 0 ∧
    s.metadata.end_time_prop = .ok 1 :=
  ⟨rfl, rfl, rfl, rfl⟩

/-- Claim C4, amended: `completed` is false until both the return value has
been submitted and the scope has exited, and becomes true once both have
occurred in either order. While `completed` is false, reading the merged
test result or the exception info raises; the return value raises exactly
until submitted, the log records and end time exactly until scope exit, and
the start time exactly until scope entry. -/
theorem C4_completed_lifecycle (t1 t2 : Nat) (v : PyValue)
    (exc : Option PyExc) (logs : List Nat) (embedded : List StepTree) :
    let s0 := initSupervision embedded
    let sIn := supervisionEnter t1 s0
    (sIn.metadata.completed = false) ∧
    ((supervisionExit t2 exc logs sIn).metadata.completed = false) ∧
    ((submitReturnValue v (supervisionExit t2 exc logs sIn)).metadata.completed
      = true) ∧
    ((submitReturnValue v sIn).metadata.completed = false) ∧
    ((supervisionExit t2 exc logs (submitReturnValue v sIn)).metadata.completed
      = true) ∧
    (∀ m : TestStepMetadataState, m.completed = false →
      m.test_result_prop.isOk = false ∧ m.exc_info_prop.isOk = false) ∧
    (∀ m : TestStepMetadataState,
      m.return_value_prop.isOk = m.return_value_is_set) ∧
    (∀ m : TestStepMetadataState,
      m.log_messages_prop.isOk = m.log_messages.isSome ∧
      m.start_time_prop.isOk = m.test_start_time.isSome ∧
      m.end_time_prop.isOk = m.test_end_time.isSome) := by
  refine ⟨rfl, ?_, ?_, ?_, ?_, ?_, ?_, ?_⟩
  · simp [supervisionEnter, supervisionExit, attemptToComplete, initSupervision,
      initMetadata]
  · simp [supervisionEnter, supervisionExit, submitReturnValue,
      attemptToComplete, initSupervision, initMetadata]
  · simp [supervisionEnter, submitReturnValue, attemptToComplete,
      initSupervision, initMetadata]
  · simp [supervisionEnter, supervisionExit, submitReturnValue,
      attemptToComplete, initSupervision, initMetadata]
  · intro m hm
    simp [TestStepMetadataState.test_result_prop,
      TestStepMetadataState.exc_info_prop, hm, Except.isOk, Except.toBool]
  · intro m
    cases h : m.return_value_is_set <;>
      simp [TestStepMetadataState.return_value_prop, h, Except.isOk, Except.toBool]
  · intro m
    refine ⟨?_, ?_, ?_⟩
    · cases h : m.log_messages <;>
        simp [TestStepMetadataState.log_messages_prop, h, Except.isOk, Except.toBool]
    · cases h : m.test_start_time <;>
        simp [TestStepMetadataState.start_time_prop, h, Except.isOk, Except.toBool]
    · cases h : m.test_end_time <;>
        simp [TestStepMetadataState.end_time_prop, h, Except.isOk, Except.toBool]

/-- Witness for `C4` (amended) at concrete inputs, with the universally
quantified accessor clauses instantiated at a concrete incomplete state. -/
theorem C4_completed_lifecycle_witness :
    ((submitReturnValue (.other 3)
        (supervisionExit 1 Option.none [] (supervisionEnter 0
          (initSupervision [])))).metadata.completed = true) ∧
    ((initMetadata []).test_result_prop.isOk = false) := by
  have h := C4_completed_lifecycle 0 1 (.other 3) Option.none [] []
  exact ⟨h.2.2.1, (h.2.2.2.2.2.1 (initMetadata []) rfl).1⟩

/-! # Sequence supervision — `core/sequence/supervision.py` -/

/-- A `TestStepResultInfo` rendered from a completed node
(`as_test_step_result_info`): merged result, submitted return value,
attached exception, recursively rendered embedded steps. (Name, uuid,
ancestry and log records are identity metadata not inspected by any claim.) -/
inductive StepInfo where
  | mk (result : TestResult) (returned : PyValue) (exc : Option PyExc)
      (embedded_results : List StepInfo)

mutual

/-- Source method `TestStepMetadata.as_test_step_result_info` on a completed tree. -/
def StepTree.asInfo : StepTree → StepInfo
  | .node returned exc children =>
    .mk (StepTree.test_result (.node returned exc children)) returned exc
      (asInfoList children)

def asInfoList : List StepTree → List StepInfo
  | [] => []
  | t :: ts => t.asInfo :: asInfoList ts

end

/-- The `TestResultInfo` record: the rendered root steps of one sequence run. -/
structure TestResultInfoR where
  steps : List StepInfo

/-- The mutable state of a `TestSequenceSupervision` object. `sequence` is
the root-step list filled by the entangled step supervisor during the run
(here: completed root trees). -/
structure TestSequenceSupervisionState where
  sequence : List StepTree
  return_value : PyValue
  submitted_return_value : Bool
  traversed_context : Bool

/-- Source property `TestSequenceSupervision.return_value`: raises while unsubmitted. -/
def TestSequenceSupervisionState.return_value_prop
    (s : TestSequenceSupervisionState) : Except String PyValue :=
  if ¬ s.submitted_return_value then .error "No return value submitted!"
  else .ok s.return_value

/-- Source property `TestSequenceSupervision.test_result`: raises until the context was
traversed and the return value submitted; otherwise the merge of every root
step's result with the result inferred from the sequence's return value. -/
def TestSequenceSupervisionState.test_result_prop
    (s : TestSequenceSupervisionState) : Except String TestResult :=
  if ¬ s.traversed_context then .error "Test Sequence not yet finished!"
  else if ¬ s.submitted_return_value then
    .error "return value of Test Sequence is not yet submitted!"
  else .ok (reduceMergeWithInferred (childResultsList s.sequence)
    (infer_test_result s.return_value Option.none))

/-- Source property `TestSequenceSupervision.test_result_info`: render every root step. -/
def TestSequenceSupervisionState.test_result_info_prop
    (s : TestSequenceSupervisionState) : TestResultInfoR :=
  ⟨asInfoList s.sequence⟩

/-! # The sequence phase of `TestSystem._test_system_exec_loop` —
`core/test_system.py` lines 407–440

The phase is modelled from the point where the supervision pair exists and
the `TestSequence` callback has been invoked: the callback's outcome (normal
return value or a raised exception) and the root steps collected during the
run are parameters. The health monitor is assumed fault-free (its aggregate
raise is a separate path not covered by C5). -/

/-- Outcome of invoking the registered `TestSequence` callback. -/
inductive SeqOutcome where
  | normal (v : PyValue)
  | raises (e : PyExc)

/-- State of the sequence supervision after the `with sequence_supervision:`
block: the context was traversed either way; the return value was submitted
iff the callback returned normally (`submit_return_value(ret_val)` is the
next statement inside the block). -/
def seqSupervisionAfter (roots : List StepTree) (o : SeqOutcome) :
    TestSequenceSupervisionState :=
  { sequence := roots
    return_value := match o with | .normal v => v | .raises _ => PyValue.none
    submitted_return_value := match o with | .normal _ => true | .raises _ => false
    traversed_context := true }

/-- The keyword arguments the `finally:` block passes to the `UutRecovery`
slot. -/
structure RecoveryInvocation where
  system_setup_data : PyValue
  uut_setup_data : PyValue
  test_sequence_data : PyValue
  test_result : TestResultInfoR

/-- Result of one execution of the try/except/finally around the sequence:
whether (and with what) `uut_recovery` was invoked, the control-flow flags
the handlers set, whether the handlers requested `break`, and the exception
escaping the statement (an exception raised while evaluating the `finally:`
block's arguments replaces any pending `break` or handled outcome). -/
structure SequencePhaseResult where
  recovery : Option RecoveryInvocation
  quit_requested : Bool
  shit_on_the_fan : Bool
  break_loop : Bool
  escaped : Option PyExc

/-- The try/except/finally of the sequence phase. Handlers:
`except AbortTestSequence` only logs; `except QuitTestSystem` sets the quit
flag and breaks; `except Exception` routes to the error handler, sets the
fatal flag and breaks. The `finally:` always runs and evaluates
`sequence_supervision.return_value` — a property that raises `RuntimeError`
when the callback did not return normally; in that case `uut_recovery` is
never invoked and the `RuntimeError` escapes the whole statement. -/
def sequencePhase (system_setup_data uut_setup_data : PyValue)
    (roots : List StepTree) (o : SeqOutcome) : SequencePhaseResult :=
  let sup := seqSupervisionAfter roots o
  let (quitf, fatalf, brk) :=
    match o with
    | .normal _ => (false, false, false)
    | .raises .abortTestSequence => (false, false, false)
    | .raises .quitTestSystem => (true, false, true)
    | .raises _ => (false, true, true)
  match sup.return_value_prop with
  | .error msg =>
    { recovery := Option.none
      quit_requested := quitf
      shit_on_the_fan := fatalf
      break_loop := false
      escaped := some (.runtimeError msg) }
  | .ok v =>
    { recovery := some
        { system_setup_data := system_setup_data
          uut_setup_data := uut_setup_data
          test_sequence_data := v
          test_result := sup.test_result_info_prop }
      quit_requested := quitf
      shit_on_the_fan := fatalf
      break_loop := brk
      escaped := Option.none }

/-- Claim C5 is a code bug: the `finally:` block's semantics guarantee that the
`UutRecovery` slot runs regardless of outcome, but its arguments evaluate
`sequence_supervision.return_value`, which raises `RuntimeError` whenever
the sequence callback did not return normally. At the failing input — a
sequence that raises the sequence-abort control signal — `uut_recovery` is
not invoked and a `RuntimeError` escapes instead; the same happens for the
quit signal and for any other exception. Only on a normal return is recovery
invoked, then indeed with the sequence's own return value and the rendered
test outcome. -/
theorem C5_recovery_not_always_invoked :
    (sequencePhase (.other 1) (.other 2) [] (.raises .abortTestSequence)).recovery
        = Option.none ∧
    (sequencePhase (.other 1) (.other 2) [] (.raises .abortTestSequence)).escaped
        = some (.runtimeError "No return value submitted!") ∧
    (sequencePhase (.other 1) (.other 2) [] (.raises .quitTestSystem)).recovery
        = Option.none ∧
    (sequencePhase (.other 1) (.other 2) [] (.raises (.otherExc 9))).recovery
        = Option.none ∧
    (sequencePhase (.other 1) (.other 2) [] (.normal (.other 3))).recovery
        = some
          { system_setup_data := .other 1
            uut_setup_data := .other 2
            test_sequence_data := .other 3
            test_result := ⟨[]⟩ } :=
  ⟨rfl, rfl, rfl, rfl, rfl⟩

/-! # The step boundary — `core/test_step/decorated_test_step.py` -/

/-- Source helper `infer_return_value`: unwrap a `CustomTestResult` to its payload. -/
def infer_return_value : PyValue → PyValue
  | .customResult _ payload => payload
  | v => v

/-- Source method `TestSystem.repeat_test_step`: first `_quit_if_appropriate` (raise
`QuitTestSystem` iff quit was requested and the do-not-abort guard is off),
then the unimplemented repeat decision, which always answers `False`. -/
def repeat_test_step (quit_requested do_not_abort : Bool) :
    Except PyExc Bool :=
  if quit_requested ∧ ¬ do_not_abort then .error .quitTestSystem
  else .ok false

/-- Outcome of one call of a decorated test step. -/
inductive StepCallOutcome where
  | returns (v : PyValue)
  | raises (e : PyExc)
  deriving DecidableEq, Repr

/-- Source method `DecoratedTestStep.__call__`, for one loop pass (the repeat decision is
the constant `False`): run the body inside the supervision scope; on a
normal return, unwrap the value and submit it (completing the metadata); any
exception from the body — including the control signals, which are
`Exception` subclasses — is caught by the `except Exception` clause and
logged, leaving the metadata incomplete. Then the repeat hook is consulted;
not repeating, `supervision.metadata.test_result` is read (raising
`RuntimeError` on an incomplete node), and a result below `Success` on an
abort-on-error step raises `AbortTestSequence`; otherwise the sentinel check
turns a never-assigned return value into an `AssertionError`. `children` are
the embedded steps the body attached to the node; `t1`, `t2`, `logs` are the
opaque timestamps and captured log records. -/
def decoratedStepCall (abort_on_error quit_requested do_not_abort : Bool)
    (body : StepCallOutcome) (children : List StepTree) (t1 t2 : Nat)
    (logs : List Nat) : StepCallOutcome :=
  let s0 := supervisionEnter t1 (initSupervision children)
  let (sAfter, returnedVal) :=
    match body with
    | .returns v =>
      let returned := infer_return_value v
      (submitReturnValue returned (supervisionExit t2 Option.none logs s0),
        some returned)
    | .raises e =>
      (supervisionExit t2 (some e) logs s0, Option.none)
  match repeat_test_step quit_requested do_not_abort with
  | .error e => .raises e
  | .ok true => .raises .assertionError
  | .ok false =>
    match sAfter.metadata.test_result_prop with
    | .error msg => .raises (.runtimeError msg)
    | .ok result =>
      if result.toBool = false ∧ abort_on_error then .raises .abortTestSequence
      else
        match returnedVal with
        | Option.none => .raises .assertionError
        | some r => .returns r

/-- Claim C6 is a code bug. On the normal-return path the claim's abort clause
holds: a step returning `TestResult.FAILED` (or succeeding over a failed
child) with abort-on-error raises the sequence-abort signal, and without
abort-on-error the value is returned. But when the body raises, the
`except Exception` clause catches *everything* — the assertion-style
failure and both control signals included — and, because the return value
was never submitted, the metadata never completes, so the subsequent
`metadata.test_result` read raises `RuntimeError`, which escapes the step
call: the exception neither stays contained nor do the control signals
propagate uninterrupted. -/
theorem C6_step_boundary :
    decoratedStepCall true false false (.returns (.testResult .FAILED)) [] 0 1 []
        = .raises .abortTestSequence ∧
    decoratedStepCall false false false (.returns (.testResult .FAILED)) [] 0 1 []
        = .returns (.testResult .FAILED) ∧
    decoratedStepCall true false false (.returns PyValue.none)
        [StepTree.node (.testResult .EXCEPTION) Option.none []] 0 1 []
        = .raises .abortTestSequence ∧
    decoratedStepCall true false false (.raises .failedTest) [] 0 1 []
        = .raises (.runtimeError "test step has not completed yet!") ∧
    decoratedStepCall false false false (.raises (.otherExc 5)) [] 0 1 []
        = .raises (.runtimeError "test step has not completed yet!") ∧
    decoratedStepCall false false false (.raises .abortTestSequence) [] 0 1 []
        = .raises (.runtimeError "test step has not completed yet!") ∧
    decoratedStepCall false false false (.raises .quitTestSystem) [] 0 1 []
        = .raises (.runtimeError "test step has not completed yet!") :=
  ⟨rfl, rfl, rfl, rfl, rfl, rfl, rfl⟩

/-! # `TestSequenceSupervision.setup_supervision` —
`core/sequence/supervision.py` lines 21–39

The body constructs the supervision object and then calls
`TestStepSupervisor(on_test_step_enter_callback=submit_test_step_meta_data,
log_capture=log_capture)`. Keyword-argument binding is modelled explicitly:
a Python call raises `TypeError` when a passed keyword does not name a
parameter of the callee. -/

/-- Python keyword binding: every passed keyword must name a parameter. -/
def pythonKeywordCall (params passed : List String) : Except String Unit :=
  match passed.filter (fun k => ¬ params.contains k) with
  | [] => .ok ()
  | k :: _ => .error ("unexpected keyword argument " ++ k)

/-- The parameters of `TestStepSupervisor.__init__`
(`core/test_step/supervision.py` lines 74–80), besides `self`. -/
def testStepSupervisorInitParams : List String :=
  ["on_test_step_enter_callback", "on_test_step_exit_callback"]

/-- The keywords `setup_supervision` passes to `TestStepSupervisor(...)`. -/
def setupSupervisionPassedKwargs : List String :=
  ["on_test_step_enter_callback", "log_capture"]

/-- The enter callback `submit_test_step_meta_data` that `setup_supervision`
would entangle with the step supervisor: append the entered step's metadata
to the sequence's root list iff the step has no parent. -/
def submit_test_step_meta_data (parent : Option StepTree)
    (sequence : List StepTree) (metadata : StepTree) : List StepTree :=
  match parent with
  | some _ => sequence
  | Option.none => sequence ++ [metadata]

/-- Claim C7 is a code bug: every call of `setup_supervision` dies constructing
the supervisor, because it passes the keyword `log_capture`, which
`TestStepSupervisor.__init__` does not accept — a `TypeError` is raised
before any pair can be returned. (The enter callback it meant to install
does append exactly the parentless steps, as `submit_test_step_meta_data`
shows, but the entangled pair is never created.) -/
theorem C7_setup_supervision_type_error :
    pythonKeywordCall testStepSupervisorInitParams setupSupervisionPassedKwargs
        = .error "unexpected keyword argument log_capture" ∧
    (∀ (seq : List StepTree) (m : StepTree),
      submit_test_step_meta_data Option.none seq m = seq ++ [m]) ∧
    (∀ (p : StepTree) (seq : List StepTree) (m : StepTree),
      submit_test_step_meta_data (some p) seq m = seq) :=
  ⟨rfl, fun _ _ => rfl, fun _ _ _ => rfl⟩

/-! # `TestSystem.never_abort` and `_quit_if_appropriate` —
`core/test_system.py` -/

/-- The two engine flags the quit machinery reads. -/
structure EngineFlags where
  do_not_abort : Bool
  quit_requested : Bool
  deriving DecidableEq, Repr

/-- Outcome of the body guarded by `never_abort`. -/
inductive GuardedBodyOutcome where
  | completes
  | raises (e : PyExc)

/-- Source context manager `TestSystem.never_abort` as a `@contextmanager` generator: set the
guard, yield to the body, clear the guard — with no try/finally around the
yield, so when the body raises, the exception is thrown into the generator
at the yield point and the clearing line never runs; the exception
propagates with the guard still set. (The guarded bodies do not themselves
touch the flag, so the body is represented by its outcome.) -/
def never_abort_run (s : EngineFlags) (body : GuardedBodyOutcome) :
    EngineFlags × Option PyExc :=
  let s1 := { s with do_not_abort := true }
  match body with
  | .completes => ({ s1 with do_not_abort := false }, Option.none)
  | .raises e => (s1, some e)

/-- Source method `TestSystem._quit_if_appropriate`: raise `QuitTestSystem` iff quit was
requested and the do-not-abort guard is off; with the guard on, only a
warning is logged and the quit request is suppressed. -/
def quit_if_appropriate (s : EngineFlags) : Except PyExc Unit :=
  if s.quit_requested then
    if s.do_not_abort then .ok ()
    else .error .quitTestSystem
  else .ok ()

/-- Claim C10: `never_abort` sets the do-not-abort guard on entry and clears it
only on a normal completion of the body; when the body raises, the
exception propagates with the guard left set, and from such a state every
subsequent quit request is suppressed (`_quit_if_appropriate` does not
raise) for as long as nothing clears the flag. -/
theorem C10_never_abort_guard (s : EngineFlags) (e : PyExc)
    (body : GuardedBodyOutcome) :
    (({ s with do_not_abort := true } : EngineFlags).do_not_abort = true) ∧
    ((never_abort_run s .completes).1.do_not_abort = false) ∧
    ((never_abort_run s (.raises e)).1.do_not_abort = true) ∧
    ((never_abort_run s (.raises e)).2 = some e) ∧
    (quit_if_appropriate
        { (never_abort_run s (.raises e)).1 with quit_requested := true }
      = .ok ()) ∧
    ((never_abort_run s body).2 = Option.none →
      (never_abort_run s body).1.do_not_abort = false) := by
  refine ⟨rfl, rfl, rfl, rfl, rfl, ?_⟩
  cases body with
  | completes => intro _; rfl
  | raises e' => intro h; simp [never_abort_run] at h

/-- Witness for `C10` discharging the normal-completion hypothesis of the
last clause at a concrete state. -/
theorem C10_never_abort_guard_witness :
    (never_abort_run ⟨false, false⟩ .completes).1.do_not_abort = false :=
  (C10_never_abort_guard ⟨false, false⟩ .failedTest .completes).2.2.2.2.2 rfl

/-! # Capability binding — `core/arg_flags/facilities.py`,
`core/callback_registry/well_known_argument.py`,
`core/callback_registry/callbacks/assimilation.py`

A Python function signature is modelled as a list of parameters; each
parameter records its name, its kind, whether it has a default value, and
which capability markers its annotation carries (the framework detects a
capability either by a known type annotation — `ExitStack`,
`TestResultInfo` — or by an `Annotated[..., Flag]` marker; both reduce to
"this parameter requests this capability"). -/

/-- The `WellKnownArgument` enum: the five fixed capabilities. -/
inductive Capability where
  | exit_stack
  | system_setup_data
  | uut_setup_data
  | test_sequence_data
  | test_result
  deriving DecidableEq, Repr, Fintype

inductive ParamKind where
  | positionalOrKeyword
  | positionalOnly
  | varPositional
  | varKeyword
  | keywordOnly
  deriving DecidableEq, Repr

structure Param where
  name : String
  kind : ParamKind
  hasDefault : Bool
  caps : List Capability
  deriving DecidableEq, Repr

abbrev Signature := List Param

/-- The names of the parameters of `sig` whose annotation requests `c`
(the generator `_parameter_with_certain_flag` / `_get_argument_by_type`). -/
def paramsRequesting (sig : Signature) (c : Capability) : List String :=
  (sig.filter (fun p => p.caps.contains c)).map Param.name

/-- The 0/1/many dispatch shared by `get_flagged_argument` and
`get_argument_by_type`: exactly one match yields it, zero matches only warn,
several matches raise. -/
def pickSingle : List String → Except String (Option String)
  | [x] => .ok (some x)
  | [] => .ok Option.none
  | _ => .error "flags more than one argument"

/-- Source functions `get_flagged_argument` and `get_argument_by_type`. -/
def get_flagged_argument (sig : Signature) (c : Capability) :
    Except String (Option String) :=
  pickSingle (paramsRequesting sig c)

/-- The fixed order in which `well_known_arguments` probes the capabilities. -/
def capabilityProbeOrder : List Capability :=
  [Capability.exit_stack, Capability.system_setup_data,
   Capability.uut_setup_data, Capability.test_sequence_data,
   Capability.test_result]

/-- The probing loop of `well_known_arguments`. -/
def wkaLoop (sig : Signature) :
    List Capability → List (Capability × String) →
    Except String (List (Capability × String))
  | [], acc => .ok acc
  | c :: rest, acc =>
    match get_flagged_argument sig c with
    | .error e => .error e
    | .ok Option.none => wkaLoop sig rest acc
    | .ok (some n) => wkaLoop sig rest (acc ++ [(c, n)])

/-- Source generator `well_known_arguments(func)`: the capability → parameter-name pairs the
signature declares; raises when some capability is requested by more than
one parameter. -/
def well_known_arguments (sig : Signature) :
    Except String (List (Capability × String)) :=
  wkaLoop sig capabilityProbeOrder []

/-- Dictionary lookup `native_args[wk_arg]` (keys are unique). -/
def lookupCap (c : Capability) : List (Capability × String) → Option String
  | [] => Option.none
  | (k, v) :: rest => if k = c then some v else lookupCap c rest

/-- The translation loop of `create_kwargs_translation_table`: for each
well-known argument the foreign function declares, fail if the native call
site does not supply it, otherwise map native name to foreign name. -/
def translateLoop (nativeArgs : List (Capability × String)) :
    List (Capability × String) → List (String × String) →
    Except String (List (String × String))
  | [], mapping => .ok mapping
  | pr :: rest, mapping =>
    match lookupCap pr.1 nativeArgs with
    | Option.none =>
      .error "declares a well-known argument the native call does not supply"
    | some nativeName =>
      translateLoop nativeArgs rest (mapping ++ [(nativeName, pr.2)])

/-- Source function `create_kwargs_translation_table(native_func, foreign_func)`. -/
def create_kwargs_translation_table (native foreign : Signature) :
    Except String (List (String × String)) :=
  match well_known_arguments native with
  | .error e => .error e
  | .ok nativeArgs =>
    match well_known_arguments foreign with
    | .error e => .error e
    | .ok foreignWk => translateLoop nativeArgs foreignWk []

/-- The sanity checks of `assimilate_function`, in source order: reject a
variadic positional parameter, a variadic keyword parameter, a
positional-only parameter, and any parameter without a default value whose
name is not covered by the translation table's foreign-side names. -/
def assimilate_function_checks (foreign : Signature)
    (table : List (String × String)) : Except String Unit :=
  if (foreign.filter (fun p => p.kind == ParamKind.varPositional)).length ≠ 0 then
    .error "variable positional argument cannot be translated"
  else if (foreign.filter (fun p => p.kind == ParamKind.varKeyword)).length ≠ 0 then
    .error "variable keyword argument cannot be translated"
  else if (foreign.filter (fun p => p.kind == ParamKind.positionalOnly)).length ≠ 0 then
    .error "positional only arguments cannot be handled"
  else if ((foreign.filter (fun p => p.hasDefault == false)).map Param.name).filter
      (fun n => ¬ (table.map Prod.snd).contains n) ≠ [] then
    .error "arguments which are not provided via the native API"
  else .ok ()

/-- Registration-time binding: build the translation table, then run the
assimilation checks (the run-time wrapper itself is not needed by any
claim); returns the table on success. -/
def bindCallback (native foreign : Signature) :
    Except String (List (String × String)) :=
  match create_kwargs_translation_table native foreign with
  | .error e => .error e
  | .ok table =>
    match assimilate_function_checks foreign table with
    | .error e => .error e
    | .ok _ => .ok table

/-! The six slot signatures of `callbacks/actual_callbacks.py`
(each slot's `__call__`, without `self`). -/

def systemSetupSlotSig : Signature :=
  [⟨"exit_stack", .positionalOrKeyword, false, [.exit_stack]⟩]

def testBedPreparationSlotSig : Signature :=
  [⟨"system_setup_data", .positionalOrKeyword, false, [.system_setup_data]⟩]

def uutSetupSlotSig : Signature :=
  [⟨"system_setup_data", .positionalOrKeyword, false, [.system_setup_data]⟩,
   ⟨"exit_stack", .positionalOrKeyword, false, [.exit_stack]⟩]

def testSequenceSlotSig : Signature :=
  [⟨"system_setup_data", .positionalOrKeyword, false, [.system_setup_data]⟩,
   ⟨"uut_setup_data", .positionalOrKeyword, false, [.uut_setup_data]⟩]

def uutRecoverySlotSig : Signature :=
  [⟨"system_setup_data", .positionalOrKeyword, false, [.system_setup_data]⟩,
   ⟨"uut_setup_data", .positionalOrKeyword, false, [.uut_setup_data]⟩,
   ⟨"test_sequence_data", .positionalOrKeyword, false, [.test_sequence_data]⟩,
   ⟨"test_result", .positionalOrKeyword, false, [.test_result]⟩]

def uutResultHandlerSlotSig : Signature :=
  uutRecoverySlotSig

/-! Lemmas about the binding pipeline. -/

theorem pickSingle_error_of_two {l : List String} (h : 2 ≤ l.length) :
    (pickSingle l).isOk = false := by
  match l with
  | [] => simp at h
  | [x] => simp at h
  | x :: y :: ys => rfl

theorem wkaLoop_error_of_bad (sig : Signature) (c : Capability)
    (hc : (get_flagged_argument sig c).isOk = false) :
    ∀ (l : List Capability) (acc : List (Capability × String)), c ∈ l →
      (wkaLoop sig l acc).isOk = false := by
  intro l
  induction l with
  | nil => intro acc h; cases h
  | cons c' rest ih =>
    intro acc h
    rw [wkaLoop]
    rcases List.mem_cons.mp h with rfl | hrest
    · cases hg : get_flagged_argument sig c
      · rfl
      · rw [hg] at hc; simp [Except.isOk, Except.toBool] at hc
    · cases hg : get_flagged_argument sig c'
      · rfl
      · rename_i v
        cases v
        · exact ih acc hrest
        · exact ih _ hrest

theorem well_known_arguments_error_of_dup (sig : Signature) (c : Capability)
    (h : 2 ≤ (paramsRequesting sig c).length) :
    (well_known_arguments sig).isOk = false := by
  have hmem : c ∈ capabilityProbeOrder := by cases c <;> decide
  exact wkaLoop_error_of_bad sig c (pickSingle_error_of_two h)
    capabilityProbeOrder [] hmem

theorem lookupCap_eq_none {c : Capability} :
    ∀ {l : List (Capability × String)}, c ∉ l.map Prod.fst →
      lookupCap c l = Option.none := by
  intro l
  induction l with
  | nil => intro _; rfl
  | cons kv rest ih =>
    intro h
    obtain ⟨k, v⟩ := kv
    rw [lookupCap]
    rw [List.map_cons, List.mem_cons] at h
    push_neg at h
    rw [if_neg (fun he => h.1 he.symm)]
    exact ih h.2

theorem translateLoop_error_of_missing (nativeArgs : List (Capability × String))
    (pr : Capability × String) (hpr : lookupCap pr.1 nativeArgs = Option.none) :
    ∀ (l : List (Capability × String)) (mapping : List (String × String)),
      pr ∈ l → (translateLoop nativeArgs l mapping).isOk = false := by
  intro l
  induction l with
  | nil => intro mapping h; cases h
  | cons pr' rest ih =>
    intro mapping h
    rw [translateLoop]
    rcases List.mem_cons.mp h with rfl | hrest
    · rw [hpr]; rfl
    · cases hl : lookupCap pr'.1 nativeArgs
      · rfl
      · exact ih _ hrest

/-- Every foreign-side name in a table produced by the translation loop
stems from the accumulator or from the processed well-known pairs. -/
theorem translateLoop_snd_subset (nativeArgs : List (Capability × String)) :
    ∀ (l : List (Capability × String)) (mapping tbl : List (String × String)),
      translateLoop nativeArgs l mapping = .ok tbl →
      ∀ n ∈ tbl.map Prod.snd,
        n ∈ mapping.map Prod.snd ∨ n ∈ l.map Prod.snd := by
  intro l
  induction l with
  | nil =>
    intro mapping tbl h n hn
    rw [translateLoop] at h
    cases h
    exact Or.inl hn
  | cons pr rest ih =>
    intro mapping tbl h n hn
    rw [translateLoop] at h
    cases hl : lookupCap pr.1 nativeArgs with
    | none => rw [hl] at h; cases h
    | some nn =>
      rw [hl] at h
      rcases ih _ _ h n hn with hacc | hrest
      · rw [List.map_append, List.mem_append] at hacc
        rcases hacc with h1 | h2
        · exact Or.inl h1
        · simp at h2
          exact Or.inr (by simp [h2])
      · exact Or.inr (List.mem_cons_of_mem _ hrest)

/-- A pair yielded for capability `c` names a parameter that requests `c`. -/
def GoodPair (sig : Signature) (pr : Capability × String) : Prop :=
  ∃ q ∈ sig, q.name = pr.2 ∧ q.caps.contains pr.1 = true

theorem get_flagged_some_good {sig : Signature} {c : Capability} {n : String}
    (h : get_flagged_argument sig c = .ok (some n)) : GoodPair sig (c, n) := by
  rw [get_flagged_argument] at h
  cases hpr : paramsRequesting sig c with
  | nil => rw [hpr] at h; cases h
  | cons x xs =>
    cases xs with
    | nil =>
      rw [hpr] at h
      simp only [pickSingle, Except.ok.injEq, Option.some.injEq] at h
      subst h
      have hx : x ∈ paramsRequesting sig c := by rw [hpr]; exact List.mem_cons_self _ _
      rw [paramsRequesting] at hx
      obtain ⟨q, hq, hqn⟩ := List.mem_map.mp hx
      have hq' := List.mem_filter.mp hq
      exact ⟨q, hq'.1, hqn, hq'.2⟩
    | cons y ys => rw [hpr] at h; cases h

theorem wkaLoop_ok_good (sig : Signature) :
    ∀ (l : List Capability) (acc fwk : List (Capability × String)),
      (∀ pr ∈ acc, GoodPair sig pr) → wkaLoop sig l acc = .ok fwk →
      ∀ pr ∈ fwk, GoodPair sig pr := by
  intro l
  induction l with
  | nil =>
    intro acc fwk hacc h
    rw [wkaLoop] at h
    cases h
    exact hacc
  | cons c rest ih =>
    intro acc fwk hacc h
    rw [wkaLoop] at h
    cases hg : get_flagged_argument sig c with
    | error e => rw [hg] at h; cases h
    | ok v =>
      rw [hg] at h
      cases v with
      | none => exact ih acc fwk hacc h
      | some n =>
        refine ih _ fwk ?_ h
        intro pr hpr
        rcases List.mem_append.mp hpr with h1 | h2
        · exact hacc pr h1
        · simp at h2
          subst h2
          exact get_flagged_some_good hg

theorem create_table_isOk_false_of_native {native foreign : Signature}
    (h : (well_known_arguments native).isOk = false) :
    (create_kwargs_translation_table native foreign).isOk = false := by
  rw [create_kwargs_translation_table]
  cases hn : well_known_arguments native with
  | error e => rfl
  | ok nargs => rw [hn] at h; simp [Except.isOk, Except.toBool] at h

theorem create_table_isOk_false_of_foreign {native foreign : Signature}
    {nargs : List (Capability × String)}
    (hn : well_known_arguments native = .ok nargs)
    (h : (well_known_arguments foreign).isOk = false) :
    (create_kwargs_translation_table native foreign).isOk = false := by
  rw [create_kwargs_translation_table, hn]
  cases hf : well_known_arguments foreign with
  | error e => rfl
  | ok fwk => rw [hf] at h; simp [Except.isOk, Except.toBool] at h

theorem bindCallback_isOk_false_of_table {native foreign : Signature}
    (h : (create_kwargs_translation_table native foreign).isOk = false) :
    (bindCallback native foreign).isOk = false := by
  rw [bindCallback]
  cases ht : create_kwargs_translation_table native foreign with
  | error e => rfl
  | ok t => rw [ht] at h; simp [Except.isOk, Except.toBool] at h

theorem bindCallback_isOk_false_of_checks {native foreign : Signature}
    {table : List (String × String)}
    (ht : create_kwargs_translation_table native foreign = .ok table)
    (h : (assimilate_function_checks foreign table).isOk = false) :
    (bindCallback native foreign).isOk = false := by
  cases ha : assimilate_function_checks foreign table with
  | error e => simp [bindCallback, ht, ha, Except.isOk, Except.toBool]
  | ok u => rw [ha] at h; simp [Except.isOk, Except.toBool] at h

theorem assimilate_isOk_false_of_variadic {foreign : Signature}
    {table : List (String × String)} {p : Param} (hp : p ∈ foreign)
    (hv : p.kind = ParamKind.varPositional ∨ p.kind = ParamKind.varKeyword) :
    (assimilate_function_checks foreign table).isOk = false := by
  rw [assimilate_function_checks]
  by_cases h1 :
      (foreign.filter (fun p => p.kind == ParamKind.varPositional)).length ≠ 0
  · rw [if_pos h1]; rfl
  · rw [if_neg h1]
    by_cases h2 :
        (foreign.filter (fun p => p.kind == ParamKind.varKeyword)).length ≠ 0
    · rw [if_pos h2]; rfl
    · exfalso
      push_neg at h1 h2
      rcases hv with hv | hv
      · have hmem : p ∈ foreign.filter (fun p => p.kind == ParamKind.varPositional) :=
          List.mem_filter.mpr ⟨hp, by simp [hv]⟩
        rw [List.length_eq_zero] at h1
        rw [h1] at hmem
        exact List.not_mem_nil _ hmem
      · have hmem : p ∈ foreign.filter (fun p => p.kind == ParamKind.varKeyword) :=
          List.mem_filter.mpr ⟨hp, by simp [hv]⟩
        rw [List.length_eq_zero] at h2
        rw [h2] at hmem
        exact List.not_mem_nil _ hmem

/-- Claim C8: registration-time binding fails when (i) the callback requests a
capability the slot does not supply, (ii) the callback requests the same
capability on more than one parameter, (iii) the callback declares a
variadic positional or variadic keyword parameter, and (iv) the callback
declares a parameter without a default value that no supplied capability
covers (stated for callbacks with distinct parameter names, which Python
guarantees). -/
theorem C8_binding_failures :
    (∀ (native foreign : Signature) (nargs fwk : List (Capability × String))
        (c : Capability) (fname : String),
      well_known_arguments native = .ok nargs →
      well_known_arguments foreign = .ok fwk →
      (c, fname) ∈ fwk →
      c ∉ nargs.map Prod.fst →
      (bindCallback native foreign).isOk = false) ∧
    (∀ (native foreign : Signature) (c : Capability),
      2 ≤ (paramsRequesting foreign c).length →
      (bindCallback native foreign).isOk = false) ∧
    (∀ (native foreign : Signature) (p : Param), p ∈ foreign →
      (p.kind = ParamKind.varPositional ∨ p.kind = ParamKind.varKeyword) →
      (bindCallback native foreign).isOk = false) ∧
    (∀ (native foreign : Signature) (p : Param), p ∈ foreign →
      p.hasDefault = false → p.caps = [] →
      (foreign.map Param.name).Nodup →
      (bindCallback native foreign).isOk = false) := by
  refine ⟨?_, ?_, ?_, ?_⟩
  · -- (i) unsupplied capability
    intro native foreign nargs fwk c fname hn hf hmem hnot
    apply bindCallback_isOk_false_of_table
    rw [create_kwargs_translation_table, hn, hf]
    exact translateLoop_error_of_missing nargs (c, fname)
      (lookupCap_eq_none hnot) fwk [] hmem
  · -- (ii) duplicate capability
    intro native foreign c hdup
    cases hn : well_known_arguments native with
    | error e =>
      exact bindCallback_isOk_false_of_table
        (create_table_isOk_false_of_native (by rw [hn]; rfl))
    | ok nargs =>
      exact bindCallback_isOk_false_of_table
        (create_table_isOk_false_of_foreign hn
          (well_known_arguments_error_of_dup foreign c hdup))
  · -- (iii) variadic parameter
    intro native foreign p hp hv
    cases ht : create_kwargs_translation_table native foreign with
    | error e => exact bindCallback_isOk_false_of_table (by rw [ht]; rfl)
    | ok table =>
      exact bindCallback_isOk_false_of_checks ht
        (assimilate_isOk_false_of_variadic hp hv)
  · -- (iv) uncovered parameter without default
    intro native foreign p hp hdef hcaps hnodup
    cases hn : well_known_arguments native with
    | error e =>
      exact bindCallback_isOk_false_of_table
        (create_table_isOk_false_of_native (by rw [hn]; rfl))
    | ok nargs =>
      cases hf : well_known_arguments foreign with
      | error e =>
        exact bindCallback_isOk_false_of_table
          (create_table_isOk_false_of_foreign hn (by rw [hf]; rfl))
      | ok fwk =>
        cases ht : translateLoop nargs fwk [] with
        | error e =>
          apply bindCallback_isOk_false_of_table
          simp only [create_kwargs_translation_table, hn, hf, ht]
          rfl
        | ok table =>
          have htable : create_kwargs_translation_table native foreign = .ok table := by
            simp only [create_kwargs_translation_table, hn, hf, ht]
          apply bindCallback_isOk_false_of_checks htable
          -- p's name is never a foreign-side name of the table
          have hna : p.name ∉ table.map Prod.snd := by
            intro hin
            rcases translateLoop_snd_subset nargs fwk [] table ht p.name hin with
              h0 | h1
            · simp at h0
            · obtain ⟨pr, hpr, hpr2⟩ := List.mem_map.mp h1
              obtain ⟨q, hq, hqname, hqcaps⟩ :=
                wkaLoop_ok_good foreign capabilityProbeOrder [] fwk
                  (fun pr h => absurd h (List.not_mem_nil pr)) hf pr hpr
              have hqp : q = p :=
                List.inj_on_of_nodup_map hnodup hq hp (by rw [hqname, hpr2])
              rw [hqp, hcaps] at hqcaps
              simp at hqcaps
          rw [assimilate_function_checks]
          by_cases h1 :
              (foreign.filter (fun p => p.kind == ParamKind.varPositional)).length ≠ 0
          · rw [if_pos h1]; rfl
          · rw [if_neg h1]
            by_cases h2 :
                (foreign.filter (fun p => p.kind == ParamKind.varKeyword)).length ≠ 0
            · rw [if_pos h2]; rfl
            · rw [if_neg h2]
              by_cases h3 :
                  (foreign.filter (fun p => p.kind == ParamKind.positionalOnly)).length ≠ 0
              · rw [if_pos h3]; rfl
              · rw [if_neg h3]
                have hmem : p.name ∈
                    ((foreign.filter (fun p => p.hasDefault == false)).map
                      Param.name).filter
                      (fun n => ¬ (table.map Prod.snd).contains n) := by
                  refine List.mem_filter.mpr ⟨?_, ?_⟩
                  · exact List.mem_map.mpr
                      ⟨p, List.mem_filter.mpr ⟨hp, by simp [hdef]⟩, rfl⟩
                  · simpa using hna
                rw [if_pos (List.ne_nil_of_mem hmem)]
                rfl

/-- Witness for `C8`: the four failure modes at concrete callbacks against
the TestSequence slot's signature. -/
theorem C8_binding_failures_witness :
    (bindCallback testSequenceSlotSig
      [⟨"stack", .positionalOrKeyword, false, [.exit_stack]⟩]).isOk = false ∧
    (bindCallback testSequenceSlotSig
      [⟨"a", .positionalOrKeyword, false, [.uut_setup_data]⟩,
       ⟨"b", .positionalOrKeyword, false, [.uut_setup_data]⟩]).isOk = false ∧
    (bindCallback testSequenceSlotSig
      [⟨"args", .varPositional, false, []⟩]).isOk = false ∧
    (bindCallback testSequenceSlotSig
      [⟨"x", .positionalOrKeyword, false, []⟩]).isOk = false := by
  refine ⟨?_, ?_, ?_, ?_⟩
  · exact C8_binding_failures.1 testSequenceSlotSig
      [⟨"stack", .positionalOrKeyword, false, [.exit_stack]⟩]
      [(.system_setup_data, "system_setup_data"), (.uut_setup_data, "uut_setup_data")]
      [(.exit_stack, "stack")] .exit_stack "stack"
      rfl rfl (by decide) (by decide)
  · exact C8_binding_failures.2.1 testSequenceSlotSig
      [⟨"a", .positionalOrKeyword, false, [.uut_setup_data]⟩,
       ⟨"b", .positionalOrKeyword, false, [.uut_setup_data]⟩]
      .uut_setup_data (by decide)
  · exact C8_binding_failures.2.2.1 testSequenceSlotSig
      [⟨"args", .varPositional, false, []⟩]
      ⟨"args", .varPositional, false, []⟩ (by decide) (Or.inl rfl)
  · exact C8_binding_failures.2.2.2 testSequenceSlotSig
      [⟨"x", .positionalOrKeyword, false, []⟩]
      ⟨"x", .positionalOrKeyword, false, []⟩ (by decide) rfl rfl (by decide)

/-! # Callback slots — `core/callback_registry/callbacks/abstract_callback.py` -/

/-- The mutable state of a `RegisteredCallback` slot: the `_registered` flag
and the integrated function (represented by the registered callback's
signature together with its translation table). -/
structure CallbackSlotState where
  registered : Bool
  integrated_func : Option (Signature × List (String × String))
  deriving DecidableEq, Repr

/-- Source constructor `RegisteredCallback.__init__`. -/
def initialSlot : CallbackSlotState :=
  { registered := false, integrated_func := Option.none }

/-- Source method `RegisteredCallback.register`: raise at once if a function is already
registered; otherwise build the translation table against the slot's native
`__call__` signature and run the assimilation checks, and only on success
store the integrated function and set the flag. The post-state is returned
together with the call's outcome; on every failure path the raise happens
before any field is assigned, so the state is returned unchanged. -/
def RegisteredCallback_register (s : CallbackSlotState)
    (native foreign : Signature) : CallbackSlotState × Except String Unit :=
  if s.registered then
    (s, .error "only one function can be registered")
  else
    match bindCallback native foreign with
    | .error e => (s, .error e)
    | .ok table =>
      ({ registered := true, integrated_func := some (foreign, table) }, .ok ())

/-- Claim C9: calling `register` on an already-bound slot raises and leaves the
slot's state — the integrated function and the registered flag — exactly as
before the failed call. -/
theorem C9_double_registration (s : CallbackSlotState)
    (native foreign : Signature) (h : s.registered = true) :
    (RegisteredCallback_register s native foreign).1 = s ∧
    (RegisteredCallback_register s native foreign).2
      = .error "only one function can be registered" := by
  rw [RegisteredCallback_register, if_pos h]
  exact ⟨rfl, rfl⟩

/-- Witness for `C9`: a slot already bound (here: the identity-like binding
of a callback taking no capabilities to the TestSequence slot). -/
theorem C9_double_registration_witness :
    (RegisteredCallback_register
      ⟨true, some ([], [])⟩ testSequenceSlotSig []).1
      = (⟨true, some ([], [])⟩ : CallbackSlotState) ∧
    (RegisteredCallback_register
      ⟨true, some ([], [])⟩ testSequenceSlotSig []).2
      = .error "only one function can be registered" :=
  C9_double_registration ⟨true, some ([], [])⟩ testSequenceSlotSig [] rfl

end TheTestFramework
